import Mathlib

/-!
Shallow embedding of the vending-machine command protocol implemented in
`flask_server.py` (the coherent variant) and, where a claim cites it, the
acknowledge handler fragment of `app.py` (lines 489-540).

Modelling conventions:
* Database tables become Lean lists kept in insertion order; SQLAlchemy
  primary-key autoincrement becomes the `next_command_id` counter (ids
  start at 1, as in the database).
* `Query.get(pk)` / `Query.filter_by(...).first()` become `List.find?`;
  mutating the fetched row becomes replacing the first matching element.
* `datetime.utcnow()` timestamps are abstract `Nat` ticks supplied by the
  caller of each operation.
* `price` is a `db.Float` in the source, but the core never computes with
  it (it is only copied into `Transaction.amount_paid`), so it is modelled
  as `Rat`, a representation-independent choice.
* Statuses are the literal strings stored by the source code.
-/

namespace Vending

structure Product where
  id : Nat
  name : String
  price : Rat
  stock : Int
  motor_id : Nat
deriving DecidableEq, Repr

structure VendCommand where
  id : Nat
  vend_id : String
  product_id : Nat
  motor_id : Nat
  status : String
  created_at : Nat
  acknowledged_at : Option Nat
deriving DecidableEq, Repr

structure Transaction where
  product_id : Nat
  quantity : Nat
  amount_paid : Rat
deriving DecidableEq, Repr

structure DB where
  products : List Product
  commands : List VendCommand
  transactions : List Transaction
  next_command_id : Nat
deriving DecidableEq, Repr

/-- `Product.query.get(product_id)`: first row with the primary key. -/
def findProduct (ps : List Product) (pid : Nat) : Option Product :=
  ps.find? (fun p => p.id == pid)

/-- `VendCommand.query.get(command_id)`: first row with the primary key. -/
def findCommand (cs : List VendCommand) (cid : Nat) : Option VendCommand :=
  cs.find? (fun c => c.id == cid)

/-- Mutating the row fetched by primary key: replace the first matching row. -/
def updateFirstProduct : List Product → Nat → (Product → Product) → List Product
  | [], _, _ => []
  | p :: ps, pid, f => if p.id == pid then f p :: ps else p :: updateFirstProduct ps pid f

/-- Mutating the row fetched by primary key: replace the first matching row. -/
def updateFirstCommand : List VendCommand → Nat → (VendCommand → VendCommand) → List VendCommand
  | [], _, _ => []
  | c :: cs, cid, f => if c.id == cid then f c :: cs else c :: updateFirstCommand cs cid f

/-- `VendCommand.query.filter_by(vend_id=v, status='pending').first() is not None`. -/
def hasPendingCommand (cs : List VendCommand) (v : String) : Bool :=
  cs.any (fun c => c.vend_id == v && c.status == "pending")

inductive BuyResult
  | missingMachineId
  | invalidProduct
  | outOfStock
  | purchaseInProgress
  | initiated (command_id : Nat)
deriving DecidableEq, Repr

/-- `product.stock += 1` (the failure-compensation rollback). -/
def addStock (q : Product) : Product := { q with stock := q.stock + 1 }

/-- `product.stock -= 1` (the optimistic decrement at purchase creation). -/
def removeStock (q : Product) : Product := { q with stock := q.stock - 1 }

/-- `buy_item` from `flask_server.py` lines 68-123: validate machine id,
product existence, stock, absence of an in-flight pending command; then in
one transaction insert a new `pending` command and optimistically decrement
the product's stock by 1. -/
def buy_item (db : DB) (v : String) (pid : Nat) (t : Nat) : BuyResult × DB :=
  if v == "" then (.missingMachineId, db)
  else
    match findProduct db.products pid with
    | none => (.invalidProduct, db)
    | some p =>
      if p.stock ≤ 0 then (.outOfStock, db)
      else if hasPendingCommand db.commands v then (.purchaseInProgress, db)
      else
        let c : VendCommand :=
          { id := db.next_command_id, vend_id := v, product_id := p.id,
            motor_id := p.motor_id, status := "pending", created_at := t,
            acknowledged_at := none }
        (.initiated c.id,
          { db with
              commands := db.commands ++ [c],
              products := updateFirstProduct db.products p.id removeStock,
              next_command_id := db.next_command_id + 1 })

/-- One step of `ORDER BY created_at ASC ... first()`: keep the accumulator
unless the next row was created strictly earlier (rows are scanned in
insertion order, so ties keep the earlier row). -/
def olderOf (acc : Option VendCommand) (c : VendCommand) : Option VendCommand :=
  match acc with
  | none => some c
  | some b => if c.created_at < b.created_at then some c else some b

/-- `VendCommand.query.filter_by(vend_id=v, status='pending').order_by(created_at.asc()).first()`. -/
def oldestPending (cs : List VendCommand) (v : String) : Option VendCommand :=
  (cs.filter (fun c => c.vend_id == v && c.status == "pending")).foldl olderOf none

inductive GetCommandResult
  | missingMachineId
  | command (motor_id : Nat) (command_id : Nat)
  | noCommand
deriving DecidableEq, Repr

/-- `get_command` from `flask_server.py` lines 127-159: read-only poll
returning the oldest pending command's motor id and command id, or nulls. -/
def get_command (db : DB) (v : String) : GetCommandResult :=
  if v == "" then .missingMachineId
  else
    match oldestPending db.commands v with
    | some c => .command c.motor_id c.id
    | none => .noCommand

inductive AckResult
  | missingFields
  | notFound
  | machineMismatch
  | alreadyProcessed
  | invalidStatus
  | acknowledged
deriving DecidableEq, Repr

/-- `command.status = "acknowledged_success"; command.acknowledged_at = utcnow()`. -/
def markSuccess (t : Nat) (k : VendCommand) : VendCommand :=
  { k with status := "acknowledged_success", acknowledged_at := some t }

/-- `command.status = "acknowledged_failure"; command.acknowledged_at = utcnow()`. -/
def markFailure (t : Nat) (k : VendCommand) : VendCommand :=
  { k with status := "acknowledged_failure", acknowledged_at := some t }

/-- `acknowledge` from `flask_server.py` lines 161-217: guard missing fields
(Python falsiness: empty strings and the integer 0 are falsy), command
lookup, machine-id match, idempotence guard on non-`pending` status; then on
`success` only flip the status, on `failure` flip the status and add the
optimistically removed unit of stock back when the product still exists. -/
def acknowledge (db : DB) (v : String) (cid : Nat) (s : String) (t : Nat) :
    AckResult × DB :=
  if v == "" || cid == 0 || s == "" then (.missingFields, db)
  else
    match findCommand db.commands cid with
    | none => (.notFound, db)
    | some c =>
      if c.vend_id ≠ v then (.machineMismatch, db)
      else if c.status ≠ "pending" then (.alreadyProcessed, db)
      else if s == "success" then
        (.acknowledged, { db with commands := updateFirstCommand db.commands cid (markSuccess t) })
      else if s == "failure" then
        let ps : List Product :=
          match findProduct db.products c.product_id with
          | some _ => updateFirstProduct db.products c.product_id addStock
          | none => db.products
        (.acknowledged,
          { db with commands := updateFirstCommand db.commands cid (markFailure t), products := ps })
      else (.invalidStatus, db)

/-- The `acknowledge` handler fragment of `app.py` lines 489-540: identical
guards and failure branch, but on `success` it additionally logs one
`Transaction(product_id, quantity=1, amount_paid=product.price)` when the
product still exists (and silently logs nothing when it does not). It never
touches stock on `success`. -/
def acknowledge_app (db : DB) (v : String) (cid : Nat) (s : String) (t : Nat) :
    AckResult × DB :=
  if v == "" || cid == 0 || s == "" then (.missingFields, db)
  else
    match findCommand db.commands cid with
    | none => (.notFound, db)
    | some c =>
      if c.vend_id ≠ v then (.machineMismatch, db)
      else if c.status ≠ "pending" then (.alreadyProcessed, db)
      else if s == "success" then
        let cmds := updateFirstCommand db.commands cid (markSuccess t)
        match findProduct db.products c.product_id with
        | some p =>
          let tx : Transaction := { product_id := p.id, quantity := 1, amount_paid := p.price }
          (.acknowledged,
            { db with commands := cmds, transactions := db.transactions ++ [tx] })
        | none => (.acknowledged, { db with commands := cmds })
      else if s == "failure" then
        let ps : List Product :=
          match findProduct db.products c.product_id with
          | some _ => updateFirstProduct db.products c.product_id addStock
          | none => db.products
        (.acknowledged,
          { db with commands := updateFirstCommand db.commands cid (markFailure t), products := ps })
      else (.invalidStatus, db)

/-- The admin `add_product` route, restricted to the parts the core sees:
append the product when its motor id is not already taken. -/
def add_product (db : DB) (p : Product) : DB :=
  if db.products.any (fun q => q.motor_id == p.motor_id) then db
  else { db with products := db.products ++ [p] }

/-- The operations that create or mutate ledger rows, for stating invariants
over every reachable database. -/
inductive Op
  | addProduct (p : Product)
  | buy (v : String) (pid : Nat) (t : Nat)
  | ack (v : String) (cid : Nat) (s : String) (t : Nat)
deriving Repr

def applyOp (db : DB) : Op → DB
  | .addProduct p => add_product db p
  | .buy v pid t => (buy_item db v pid t).2
  | .ack v cid s t => (acknowledge db v cid s t).2

def emptyDB : DB :=
  { products := [], commands := [], transactions := [], next_command_id := 1 }

def run (ops : List Op) : DB := ops.foldl applyOp emptyDB

/-- Number of non-terminal (`pending` or `awaiting_payment`) commands a
machine currently has. -/
def nonTerminalCount (db : DB) (v : String) : Nat :=
  (db.commands.filter
    (fun c => c.vend_id == v &&
      (c.status == "pending" || c.status == "awaiting_payment"))).length

/-! ### Helper lemmas about row lookup and first-match update -/

theorem findCommand_updateFirstCommand_same (cs : List VendCommand) (cid : Nat)
    (f : VendCommand → VendCommand) (hf : ∀ c, (f c).id = c.id) :
    findCommand (updateFirstCommand cs cid f) cid = (findCommand cs cid).map f := by
  induction cs with
  | nil => rfl
  | cons c cs ih =>
    by_cases h : c.id = cid
    · simp [findCommand, updateFirstCommand, List.find?_cons, h, hf]
    · simpa [findCommand, updateFirstCommand, List.find?_cons, h] using ih

theorem findCommand_updateFirstCommand_other (cs : List VendCommand) (cid cid' : Nat)
    (f : VendCommand → VendCommand) (hf : ∀ c, (f c).id = c.id) (hne : cid' ≠ cid) :
    findCommand (updateFirstCommand cs cid f) cid' = findCommand cs cid' := by
  induction cs with
  | nil => rfl
  | cons c cs ih =>
    by_cases h : c.id = cid
    · have e1 : updateFirstCommand (c :: cs) cid f = f c :: cs := by
        simp [updateFirstCommand, h]
      have e2 : ((f c).id == cid') = false := beq_eq_false_iff_ne.mpr (by rw [hf, h]; omega)
      have e3 : (c.id == cid') = false := beq_eq_false_iff_ne.mpr (by rw [h]; omega)
      rw [e1]; simp [findCommand, List.find?_cons, e2, e3]
    · have e1 : updateFirstCommand (c :: cs) cid f = c :: updateFirstCommand cs cid f := by
        simp [updateFirstCommand, h]
      rw [e1]
      by_cases h' : c.id = cid'
      · simp [findCommand, List.find?_cons, h']
      · have e3 : (c.id == cid') = false := beq_eq_false_iff_ne.mpr h'
        simp only [findCommand, List.find?_cons, e3]
        exact ih

theorem findProduct_updateFirstProduct_same (ps : List Product) (pid : Nat)
    (f : Product → Product) (hf : ∀ p, (f p).id = p.id) :
    findProduct (updateFirstProduct ps pid f) pid = (findProduct ps pid).map f := by
  induction ps with
  | nil => rfl
  | cons p ps ih =>
    by_cases h : p.id = pid
    · simp [findProduct, updateFirstProduct, List.find?_cons, h, hf]
    · simpa [findProduct, updateFirstProduct, List.find?_cons, h] using ih

theorem findProduct_updateFirstProduct_other (ps : List Product) (pid pid' : Nat)
    (f : Product → Product) (hf : ∀ p, (f p).id = p.id) (hne : pid' ≠ pid) :
    findProduct (updateFirstProduct ps pid f) pid' = findProduct ps pid' := by
  induction ps with
  | nil => rfl
  | cons p ps ih =>
    by_cases h : p.id = pid
    · have e1 : updateFirstProduct (p :: ps) pid f = f p :: ps := by
        simp [updateFirstProduct, h]
      have e2 : ((f p).id == pid') = false := beq_eq_false_iff_ne.mpr (by rw [hf, h]; omega)
      have e3 : (p.id == pid') = false := beq_eq_false_iff_ne.mpr (by rw [h]; omega)
      rw [e1]; simp [findProduct, List.find?_cons, e2, e3]
    · have e1 : updateFirstProduct (p :: ps) pid f = p :: updateFirstProduct ps pid f := by
        simp [updateFirstProduct, h]
      rw [e1]
      by_cases h' : p.id = pid'
      · simp [findProduct, List.find?_cons, h']
      · have e3 : (p.id == pid') = false := beq_eq_false_iff_ne.mpr h'
        simp only [findProduct, List.find?_cons, e3]
        exact ih

theorem mem_updateFirstCommand (cs : List VendCommand) (cid : Nat)
    (f : VendCommand → VendCommand) (c' : VendCommand)
    (h : c' ∈ updateFirstCommand cs cid f) : c' ∈ cs ∨ ∃ c ∈ cs, c' = f c := by
  induction cs with
  | nil => simp [updateFirstCommand] at h
  | cons c cs ih =>
    by_cases hh : c.id = cid
    · simp [updateFirstCommand, hh] at h
      rcases h with h | h
      · exact Or.inr ⟨c, List.mem_cons_self .., h⟩
      · exact Or.inl (List.mem_cons_of_mem _ h)
    · simp [updateFirstCommand, hh] at h
      rcases h with h | h
      · exact Or.inl (h ▸ List.mem_cons_self ..)
      · rcases ih h with h' | ⟨c₀, hc₀, he⟩
        · exact Or.inl (List.mem_cons_of_mem _ h')
        · exact Or.inr ⟨c₀, List.mem_cons_of_mem _ hc₀, he⟩

theorem filter_length_updateFirstCommand (cs : List VendCommand) (cid : Nat)
    (f : VendCommand → VendCommand) (q : VendCommand → Bool)
    (hq : ∀ c, q (f c) = false) :
    ((updateFirstCommand cs cid f).filter q).length ≤ (cs.filter q).length := by
  induction cs with
  | nil => simp [updateFirstCommand]
  | cons c cs ih =>
    by_cases hh : c.id = cid
    · by_cases hc : q c
      · simp [updateFirstCommand, hh, List.filter_cons, hc, hq]
      · simp [updateFirstCommand, hh, List.filter_cons, hc, hq]
    · by_cases hc : q c
      · simp only [updateFirstCommand, hh, beq_iff_eq, if_false, List.filter_cons, hc,
          if_true, List.length_cons]
        omega
      · simp only [updateFirstCommand, hh, beq_iff_eq, if_false, List.filter_cons, hc,
          if_false]
        exact ih

/-! ### Branch characterizations of `acknowledge` -/

theorem acknowledge_notFound_eq (db : DB) (v : String) (cid t : Nat) (s : String)
    (hv : v ≠ "") (hcid : cid ≠ 0) (hs : s ≠ "")
    (hc : findCommand db.commands cid = none) :
    acknowledge db v cid s t = (.notFound, db) := by
  have g1 : (v == "") = false := beq_eq_false_iff_ne.mpr hv
  have g2 : (cid == 0) = false := beq_eq_false_iff_ne.mpr hcid
  have g3 : (s == "") = false := beq_eq_false_iff_ne.mpr hs
  simp [acknowledge, g1, g2, g3, hc]

theorem acknowledge_mismatch_eq (db : DB) (v : String) (cid t : Nat) (s : String)
    (c : VendCommand) (hv : v ≠ "") (hcid : cid ≠ 0) (hs : s ≠ "")
    (hc : findCommand db.commands cid = some c) (hmv : c.vend_id ≠ v) :
    acknowledge db v cid s t = (.machineMismatch, db) := by
  have g1 : (v == "") = false := beq_eq_false_iff_ne.mpr hv
  have g2 : (cid == 0) = false := beq_eq_false_iff_ne.mpr hcid
  have g3 : (s == "") = false := beq_eq_false_iff_ne.mpr hs
  simp [acknowledge, g1, g2, g3, hc, hmv]

theorem acknowledge_already_eq (db : DB) (v : String) (cid t : Nat) (s : String)
    (c : VendCommand) (hv : v ≠ "") (hcid : cid ≠ 0) (hs : s ≠ "")
    (hc : findCommand db.commands cid = some c) (hmv : c.vend_id = v)
    (hst : c.status ≠ "pending") :
    acknowledge db v cid s t = (.alreadyProcessed, db) := by
  have g1 : (v == "") = false := beq_eq_false_iff_ne.mpr hv
  have g2 : (cid == 0) = false := beq_eq_false_iff_ne.mpr hcid
  have g3 : (s == "") = false := beq_eq_false_iff_ne.mpr hs
  simp [acknowledge, g1, g2, g3, hc, hmv, hst]

theorem acknowledge_success_eq (db : DB) (v : String) (cid t : Nat)
    (c : VendCommand) (hv : v ≠ "") (hcid : cid ≠ 0)
    (hc : findCommand db.commands cid = some c) (hmv : c.vend_id = v)
    (hst : c.status = "pending") :
    acknowledge db v cid "success" t =
      (.acknowledged,
        { db with commands := updateFirstCommand db.commands cid (markSuccess t) }) := by
  have g1 : (v == "") = false := beq_eq_false_iff_ne.mpr hv
  have g2 : (cid == 0) = false := beq_eq_false_iff_ne.mpr hcid
  simp [acknowledge, g1, g2, hc, hmv, hst]

theorem acknowledge_failure_eq (db : DB) (v : String) (cid t : Nat)
    (c : VendCommand) (hv : v ≠ "") (hcid : cid ≠ 0)
    (hc : findCommand db.commands cid = some c) (hmv : c.vend_id = v)
    (hst : c.status = "pending") :
    acknowledge db v cid "failure" t =
      (.acknowledged,
        { db with
            commands := updateFirstCommand db.commands cid (markFailure t),
            products :=
              match findProduct db.products c.product_id with
              | some _ => updateFirstProduct db.products c.product_id addStock
              | none => db.products }) := by
  have g1 : (v == "") = false := beq_eq_false_iff_ne.mpr hv
  have g2 : (cid == 0) = false := beq_eq_false_iff_ne.mpr hcid
  simp [acknowledge, g1, g2, hc, hmv, hst]

theorem acknowledge_invalid_eq (db : DB) (v : String) (cid t : Nat) (s : String)
    (c : VendCommand) (hv : v ≠ "") (hcid : cid ≠ 0) (hs : s ≠ "")
    (hc : findCommand db.commands cid = some c) (hmv : c.vend_id = v)
    (hst : c.status = "pending") (h1 : s ≠ "success") (h2 : s ≠ "failure") :
    acknowledge db v cid s t = (.invalidStatus, db) := by
  have g1 : (v == "") = false := beq_eq_false_iff_ne.mpr hv
  have g2 : (cid == 0) = false := beq_eq_false_iff_ne.mpr hcid
  have g3 : (s == "") = false := beq_eq_false_iff_ne.mpr hs
  have g4 : (s == "success") = false := beq_eq_false_iff_ne.mpr h1
  have g5 : (s == "failure") = false := beq_eq_false_iff_ne.mpr h2
  simp [acknowledge, g1, g2, g3, g4, g5, hc, hmv, hst]

/-- Every branch of `acknowledge` that does not report `acknowledged` leaves
the database untouched. -/
theorem acknowledge_state_unchanged (db : DB) (v : String) (cid t : Nat) (s : String)
    (h : (acknowledge db v cid s t).1 ≠ .acknowledged) :
    (acknowledge db v cid s t).2 = db := by
  unfold acknowledge at *
  by_cases g : (v == "" || cid == 0 || s == "") = true
  · simp [g]
  · simp only [g] at h ⊢
    cases hc : findCommand db.commands cid with
    | none => simp [hc]
    | some c =>
      simp only [hc] at h ⊢
      by_cases hmv : c.vend_id ≠ v
      · simp [hmv]
      · simp only [hmv, if_false] at h ⊢
        by_cases hst : c.status ≠ "pending"
        · simp [hst]
        · simp only [hst, if_false] at h ⊢
          by_cases h1 : (s == "success") = true
          · simp [h1] at h
          · simp only [h1] at h ⊢
            by_cases h2 : (s == "failure") = true
            · simp [h2] at h
            · simp [h1, h2] at h ⊢

/-- The reported acknowledgment result does not depend on the clock. -/
theorem acknowledge_fst_clock_independent (db : DB) (v : String) (cid : Nat)
    (s : String) (t t' : Nat) :
    (acknowledge db v cid s t).1 = (acknowledge db v cid s t').1 := by
  unfold acknowledge
  by_cases g : (v == "" || cid == 0 || s == "") = true
  · simp [g]
  · simp only [g, Bool.false_eq_true, if_false]
    cases hc : findCommand db.commands cid with
    | none => simp
    | some c =>
      by_cases hmv : c.vend_id ≠ v
      · simp [hmv]
      · by_cases hst : c.status ≠ "pending"
        · simp [hmv, hst]
        · by_cases h1 : (s == "success") = true
          · simp [hmv, hst, h1]
          · by_cases h2 : (s == "failure") = true
            · simp [hmv, hst, h1, h2]
            · simp [hmv, hst, h1, h2]

/-- Inversion: a reported `acknowledged` can only come from the two
transition branches, with all guards satisfied. -/
theorem acknowledge_acknowledged_inv (db : DB) (v : String) (cid : Nat)
    (s : String) (t : Nat)
    (h : (acknowledge db v cid s t).1 = .acknowledged) :
    v ≠ "" ∧ cid ≠ 0 ∧ ∃ c, findCommand db.commands cid = some c ∧
      c.vend_id = v ∧ c.status = "pending" ∧ (s = "success" ∨ s = "failure") := by
  unfold acknowledge at h
  by_cases g : (v == "" || cid == 0 || s == "") = true
  · simp [g] at h
  · have g' : (¬v = "" ∧ ¬cid = 0) ∧ ¬s = "" := by
      simpa [Bool.or_eq_true, beq_iff_eq] using g
    refine ⟨g'.1.1, g'.1.2, ?_⟩
    simp only [g, Bool.false_eq_true, if_false] at h
    cases hc : findCommand db.commands cid with
    | none => rw [hc] at h; simp at h
    | some c =>
      rw [hc] at h
      by_cases hmv : c.vend_id ≠ v
      · simp [hmv] at h
      · by_cases hst : c.status ≠ "pending"
        · simp [hmv, hst] at h
        · push_neg at hmv hst
          by_cases h1 : (s == "success") = true
          · exact ⟨c, rfl, hmv, hst, Or.inl (beq_iff_eq.mp h1)⟩
          · by_cases h2 : (s == "failure") = true
            · exact ⟨c, rfl, hmv, hst, Or.inr (beq_iff_eq.mp h2)⟩
            · simp [hmv, hst, h1, h2] at h

theorem markSuccess_id (t : Nat) (k : VendCommand) : (markSuccess t k).id = k.id := rfl

theorem markFailure_id (t : Nat) (k : VendCommand) : (markFailure t k).id = k.id := rfl

/-- Acknowledging the same `(command_id, outcome)` a second time (at any
later clock value) leaves the database exactly as after the first call. -/
theorem acknowledge_twice_eq_once (db : DB) (v : String) (cid : Nat)
    (s : String) (t t' : Nat) :
    (acknowledge (acknowledge db v cid s t).2 v cid s t').2 =
      (acknowledge db v cid s t).2 := by
  by_cases h : (acknowledge db v cid s t).1 = .acknowledged
  · obtain ⟨hv, hcid, c, hc, hmv, hst, hs⟩ := acknowledge_acknowledged_inv db v cid s t h
    rcases hs with hs | hs
    · subst hs
      rw [acknowledge_success_eq db v cid t c hv hcid hc hmv hst]
      have hc' : findCommand (updateFirstCommand db.commands cid (markSuccess t)) cid =
          some (markSuccess t c) := by
        rw [findCommand_updateFirstCommand_same _ _ _ (markSuccess_id t), hc]; rfl
      have := acknowledge_already_eq
        { db with commands := updateFirstCommand db.commands cid (markSuccess t) }
        v cid t' "success" (markSuccess t c) hv hcid (by simp) hc' hmv (by simp [markSuccess])
      rw [this]
    · subst hs
      rw [acknowledge_failure_eq db v cid t c hv hcid hc hmv hst]
      have hc' : findCommand (updateFirstCommand db.commands cid (markFailure t)) cid =
          some (markFailure t c) := by
        rw [findCommand_updateFirstCommand_same _ _ _ (markFailure_id t), hc]; rfl
      have := acknowledge_already_eq
        { db with
            commands := updateFirstCommand db.commands cid (markFailure t),
            products :=
              match findProduct db.products c.product_id with
              | some _ => updateFirstProduct db.products c.product_id addStock
              | none => db.products }
        v cid t' "failure" (markFailure t c) hv hcid (by simp) hc' hmv (by simp [markFailure])
      rw [this]
  · have e1 : (acknowledge db v cid s t).2 = db := acknowledge_state_unchanged _ _ _ _ _ h
    rw [e1]
    have h' : (acknowledge db v cid s t').1 ≠ .acknowledged := by
      rw [acknowledge_fst_clock_independent db v cid s t' t]; exact h
    exact acknowledge_state_unchanged _ _ _ _ _ h'

/-- After a transitioning first acknowledgment, a repeat of the same report
is answered with the `already processed` no-op note. -/
theorem acknowledge_second_already (db : DB) (v : String) (cid : Nat)
    (s : String) (t t' : Nat)
    (h : (acknowledge db v cid s t).1 = .acknowledged) :
    (acknowledge (acknowledge db v cid s t).2 v cid s t').1 = .alreadyProcessed := by
  obtain ⟨hv, hcid, c, hc, hmv, hst, hs⟩ := acknowledge_acknowledged_inv db v cid s t h
  rcases hs with hs | hs
  · subst hs
    rw [acknowledge_success_eq db v cid t c hv hcid hc hmv hst]
    have hc' : findCommand (updateFirstCommand db.commands cid (markSuccess t)) cid =
        some (markSuccess t c) := by
      rw [findCommand_updateFirstCommand_same _ _ _ (markSuccess_id t), hc]; rfl
    rw [acknowledge_already_eq _ v cid t' "success" (markSuccess t c) hv hcid (by simp)
      hc' hmv (by simp [markSuccess])]
  · subst hs
    rw [acknowledge_failure_eq db v cid t c hv hcid hc hmv hst]
    have hc' : findCommand (updateFirstCommand db.commands cid (markFailure t)) cid =
        some (markFailure t c) := by
      rw [findCommand_updateFirstCommand_same _ _ _ (markFailure_id t), hc]; rfl
    rw [acknowledge_already_eq _ v cid t' "failure" (markFailure t c) hv hcid (by simp)
      hc' hmv (by simp [markFailure])]

/-! ### More lookup facts -/

theorem findProduct_id (ps : List Product) (pid : Nat) (p : Product)
    (h : findProduct ps pid = some p) : p.id = pid := by
  have := List.find?_some h
  simpa using this

theorem findCommand_id (cs : List VendCommand) (cid : Nat) (c : VendCommand)
    (h : findCommand cs cid = some c) : c.id = cid := by
  have := List.find?_some h
  simpa using this

theorem findCommand_append_right (cs : List VendCommand) (c : VendCommand)
    (h : ∀ k ∈ cs, k.id ≠ c.id) : findCommand (cs ++ [c]) c.id = some c := by
  unfold findCommand
  rw [List.find?_append]
  have h1 : cs.find? (fun k => k.id == c.id) = none := by
    rw [List.find?_eq_none]
    intro k hk
    simpa using h k hk
  simp [h1, List.find?]

/-! ### Branch characterizations of `buy_item` -/

/-- The fresh `VendCommand` row inserted by a successful `buy_item`. -/
def newCommand (db : DB) (v : String) (p : Product) (t : Nat) : VendCommand :=
  { id := db.next_command_id, vend_id := v, product_id := p.id,
    motor_id := p.motor_id, status := "pending", created_at := t,
    acknowledged_at := none }

theorem buy_item_invalid_eq (db : DB) (v : String) (pid t : Nat) (hv : v ≠ "")
    (hp : findProduct db.products pid = none) :
    buy_item db v pid t = (.invalidProduct, db) := by
  have g1 : (v == "") = false := beq_eq_false_iff_ne.mpr hv
  simp [buy_item, g1, hp]

theorem buy_item_outOfStock_eq (db : DB) (v : String) (pid t : Nat) (p : Product)
    (hv : v ≠ "") (hp : findProduct db.products pid = some p) (hs : p.stock ≤ 0) :
    buy_item db v pid t = (.outOfStock, db) := by
  have g1 : (v == "") = false := beq_eq_false_iff_ne.mpr hv
  simp [buy_item, g1, hp, hs]

theorem buy_item_inProgress_eq (db : DB) (v : String) (pid t : Nat) (p : Product)
    (hv : v ≠ "") (hp : findProduct db.products pid = some p) (hs : ¬p.stock ≤ 0)
    (hpend : hasPendingCommand db.commands v = true) :
    buy_item db v pid t = (.purchaseInProgress, db) := by
  have g1 : (v == "") = false := beq_eq_false_iff_ne.mpr hv
  simp [buy_item, g1, hp, hs, hpend]

theorem buy_item_ok_eq (db : DB) (v : String) (pid t : Nat) (p : Product)
    (hv : v ≠ "") (hp : findProduct db.products pid = some p) (hs : ¬p.stock ≤ 0)
    (hpend : hasPendingCommand db.commands v = false) :
    buy_item db v pid t =
      (.initiated db.next_command_id,
        { db with
            commands := db.commands ++ [newCommand db v p t],
            products := updateFirstProduct db.products p.id removeStock,
            next_command_id := db.next_command_id + 1 }) := by
  have g1 : (v == "") = false := beq_eq_false_iff_ne.mpr hv
  simp [buy_item, g1, hp, hs, hpend, newCommand]

/-! ### Frame facts about `acknowledge` and the `app.py` variant -/

/-- `flask_server.py` has no `Transaction` table access in `acknowledge` at
all: the transaction history is untouched on every branch. -/
theorem acknowledge_transactions_eq (db : DB) (v : String) (cid : Nat)
    (s : String) (t : Nat) :
    (acknowledge db v cid s t).2.transactions = db.transactions := by
  unfold acknowledge
  by_cases g : (v == "" || cid == 0 || s == "") = true
  · simp [g]
  · simp only [g, Bool.false_eq_true, if_false]
    cases hc : findCommand db.commands cid with
    | none => simp
    | some c =>
      by_cases hmv : c.vend_id ≠ v
      · simp [hmv]
      · by_cases hst : c.status ≠ "pending"
        · simp [hmv, hst]
        · by_cases h1 : (s == "success") = true
          · simp [hmv, hst, h1]
          · by_cases h2 : (s == "failure") = true
            · simp [hmv, hst, h1, h2]
            · simp [hmv, hst, h1, h2]

/-- A `success` report never touches any product row in `flask_server.py`'s
`acknowledge` (stock was already decremented by `buy_item`). -/
theorem acknowledge_success_products_eq (db : DB) (v : String) (cid t : Nat) :
    (acknowledge db v cid "success" t).2.products = db.products := by
  unfold acknowledge
  by_cases gv : (v == "") = true
  · simp [gv]
  · by_cases gc : (cid == 0) = true
    · simp [gv, gc]
    · have gv' : (v == "") = false := Bool.eq_false_iff.mpr gv
      have gc' : (cid == 0) = false := Bool.eq_false_iff.mpr gc
      have g' : (v == "" || cid == 0 || ("success" == "")) = false := by
        rw [gv', gc']; rfl
      simp only [g', Bool.false_eq_true, if_false]
      cases hc : findCommand db.commands cid with
      | none => simp
      | some c =>
        by_cases hmv : c.vend_id ≠ v
        · simp [hmv]
        · by_cases hst : c.status ≠ "pending"
          · simp [hmv, hst]
          · simp [hmv, hst]

/-- A `success` report never touches any product row in the `app.py`
acknowledge variant either. -/
theorem acknowledge_app_success_products_eq (db : DB) (v : String) (cid t : Nat) :
    (acknowledge_app db v cid "success" t).2.products = db.products := by
  unfold acknowledge_app
  by_cases gv : (v == "") = true
  · simp [gv]
  · by_cases gc : (cid == 0) = true
    · simp [gv, gc]
    · have gv' : (v == "") = false := Bool.eq_false_iff.mpr gv
      have gc' : (cid == 0) = false := Bool.eq_false_iff.mpr gc
      have g' : (v == "" || cid == 0 || ("success" == "")) = false := by
        rw [gv', gc']; rfl
      simp only [g', Bool.false_eq_true, if_false]
      cases hc : findCommand db.commands cid with
      | none => simp
      | some c =>
        by_cases hmv : c.vend_id ≠ v
        · simp [hmv]
        · by_cases hst : c.status ≠ "pending"
          · simp [hmv, hst]
          · cases hp : findProduct db.products c.product_id with
            | none => simp [hmv, hst, hp]
            | some p => simp [hmv, hst, hp]

theorem acknowledge_app_success_found_eq (db : DB) (v : String) (cid t : Nat)
    (c : VendCommand) (p : Product) (hv : v ≠ "") (hcid : cid ≠ 0)
    (hc : findCommand db.commands cid = some c) (hmv : c.vend_id = v)
    (hst : c.status = "pending")
    (hp : findProduct db.products c.product_id = some p) :
    acknowledge_app db v cid "success" t =
      (.acknowledged,
        { db with
            commands := updateFirstCommand db.commands cid (markSuccess t),
            transactions := db.transactions ++
              [{ product_id := p.id, quantity := 1, amount_paid := p.price }] }) := by
  have g1 : (v == "") = false := beq_eq_false_iff_ne.mpr hv
  have g2 : (cid == 0) = false := beq_eq_false_iff_ne.mpr hcid
  simp [acknowledge_app, g1, g2, hc, hmv, hst, hp]

theorem acknowledge_app_success_missing_eq (db : DB) (v : String) (cid t : Nat)
    (c : VendCommand) (hv : v ≠ "") (hcid : cid ≠ 0)
    (hc : findCommand db.commands cid = some c) (hmv : c.vend_id = v)
    (hst : c.status = "pending")
    (hp : findProduct db.products c.product_id = none) :
    acknowledge_app db v cid "success" t =
      (.acknowledged,
        { db with commands := updateFirstCommand db.commands cid (markSuccess t) }) := by
  have g1 : (v == "") = false := beq_eq_false_iff_ne.mpr hv
  have g2 : (cid == 0) = false := beq_eq_false_iff_ne.mpr hcid
  simp [acknowledge_app, g1, g2, hc, hmv, hst, hp]

theorem acknowledge_app_mismatch_eq (db : DB) (v : String) (cid t : Nat) (s : String)
    (c : VendCommand) (hv : v ≠ "") (hcid : cid ≠ 0) (hs : s ≠ "")
    (hc : findCommand db.commands cid = some c) (hmv : c.vend_id ≠ v) :
    acknowledge_app db v cid s t = (.machineMismatch, db) := by
  have g1 : (v == "") = false := beq_eq_false_iff_ne.mpr hv
  have g2 : (cid == 0) = false := beq_eq_false_iff_ne.mpr hcid
  have g3 : (s == "") = false := beq_eq_false_iff_ne.mpr hs
  simp [acknowledge_app, g1, g2, g3, hc, hmv]

/-! ### Characterization of the dispatcher's oldest-pending selection -/

/-- `c` is dispatched before `x`: strictly earlier creation, or equal
creation timestamp and a lower (or equal, when `c = x`) id. -/
def dispatchedBefore (c x : VendCommand) : Prop :=
  c.created_at < x.created_at ∨ (c.created_at = x.created_at ∧ c.id ≤ x.id)

instance (c x : VendCommand) : Decidable (dispatchedBefore c x) := by
  unfold dispatchedBefore
  infer_instance

/-- The set of rows the database may hand back for
`VendCommand.query.filter_by(vend_id=v, status='pending')
.order_by(VendCommand.created_at.asc()).first()`: the query is
`ORDER BY created_at ASC LIMIT 1` with no secondary sort key, so the order
among rows with equal `created_at` is unspecified and any `pending` row of
the machine whose `created_at` is minimal is an admissible result. -/
def admissibleOldestPending (cs : List VendCommand) (v : String) (c : VendCommand) : Prop :=
  c ∈ cs ∧ c.vend_id = v ∧ c.status = "pending" ∧
    ∀ x ∈ cs, x.vend_id = v → x.status = "pending" → c.created_at ≤ x.created_at

instance (cs : List VendCommand) (v : String) (c : VendCommand) :
    Decidable (admissibleOldestPending cs v c) := by
  unfold admissibleOldestPending
  infer_instance

theorem foldl_olderOf_min (l : List VendCommand) (b : VendCommand) :
    ∃ c, l.foldl olderOf (some b) = some c ∧ c ∈ b :: l ∧
      ∀ x ∈ b :: l, c.created_at ≤ x.created_at := by
  induction l generalizing b with
  | nil =>
    refine ⟨b, rfl, List.mem_cons_self .., ?_⟩
    intro x hx
    rw [List.mem_singleton] at hx
    subst hx
    exact le_refl _
  | cons y l ih =>
    have hstep : (y :: l).foldl olderOf (some b) =
        l.foldl olderOf (if y.created_at < b.created_at then some y else some b) := by
      simp [List.foldl_cons, olderOf]
    by_cases hlt : y.created_at < b.created_at
    · obtain ⟨c, hfold, hmem, hall⟩ := ih y
      refine ⟨c, by rw [hstep, if_pos hlt]; exact hfold, ?_, ?_⟩
      · rcases List.mem_cons.mp hmem with h | h
        · exact h ▸ List.mem_cons_of_mem _ (List.mem_cons_self ..)
        · exact List.mem_cons_of_mem _ (List.mem_cons_of_mem _ h)
      · intro x hx
        rcases List.mem_cons.mp hx with h | h
        · subst h
          have := hall y (List.mem_cons_self ..)
          omega
        · exact hall x h
    · obtain ⟨c, hfold, hmem, hall⟩ := ih b
      refine ⟨c, by rw [hstep, if_neg hlt]; exact hfold, ?_, ?_⟩
      · rcases List.mem_cons.mp hmem with h | h
        · exact h ▸ List.mem_cons_self ..
        · exact List.mem_cons_of_mem _ (List.mem_cons_of_mem _ h)
      · intro x hx
        rcases List.mem_cons.mp hx with h | h
        · rw [h]
          exact hall b (List.mem_cons_self ..)
        · rcases List.mem_cons.mp h with h' | h'
          · have hcb := hall b (List.mem_cons_self ..)
            rw [h']
            omega
          · exact hall x (List.mem_cons_of_mem _ h')

theorem oldestPending_eq_none (cs : List VendCommand) (v : String)
    (h : oldestPending cs v = none) :
    ∀ c ∈ cs, ¬(c.vend_id = v ∧ c.status = "pending") := by
  unfold oldestPending at h
  cases hfe : cs.filter (fun c => c.vend_id == v && c.status == "pending") with
  | nil =>
    intro c hc hq
    have : ∀ a ∈ cs, ¬((fun c => c.vend_id == v && c.status == "pending") a = true) := by
      simpa using List.filter_eq_nil_iff.mp hfe
    exact this c hc (by simp [hq.1, hq.2])
  | cons b tl =>
    rw [hfe] at h
    have hfold : (b :: tl).foldl olderOf none = tl.foldl olderOf (some b) := by
      simp [List.foldl_cons, olderOf]
    rw [hfold] at h
    obtain ⟨c, hc, _, _⟩ := foldl_olderOf_min tl b
    rw [hc] at h
    simp at h

/-- The value the executable scan computes is one of the rows the database
query may return: `oldestPending` realises one admissible choice. -/
theorem oldestPending_some_admissible (cs : List VendCommand) (v : String)
    (c : VendCommand) (h : oldestPending cs v = some c) :
    admissibleOldestPending cs v c := by
  unfold oldestPending at h
  cases hfe : cs.filter (fun c => c.vend_id == v && c.status == "pending") with
  | nil =>
    rw [hfe] at h
    simp at h
  | cons b tl =>
    rw [hfe] at h
    have hfold : (b :: tl).foldl olderOf none = tl.foldl olderOf (some b) := by
      simp [List.foldl_cons, olderOf]
    rw [hfold] at h
    obtain ⟨c0, hc0, hmem, hall⟩ := foldl_olderOf_min tl b
    rw [hc0] at h
    injection h with h
    subst h
    have hmem' : c0 ∈ cs.filter (fun c => c.vend_id == v && c.status == "pending") := by
      rw [hfe]; exact hmem
    have hcq := List.of_mem_filter hmem'
    simp only [Bool.and_eq_true, beq_iff_eq] at hcq
    refine ⟨List.mem_of_mem_filter hmem', hcq.1, hcq.2, ?_⟩
    intro x hx h1 h2
    have hxf : x ∈ cs.filter (fun c => c.vend_id == v && c.status == "pending") :=
      List.mem_filter.mpr ⟨hx, by simp [h1, h2]⟩
    rw [hfe] at hxf
    exact hall x hxf

/-- Among the admissible query results, the choice is unique exactly when
one pending row's `created_at` is strictly below every other's. -/
theorem admissibleOldestPending_unique (cs : List VendCommand) (v : String)
    (c c' : VendCommand) (hc : admissibleOldestPending cs v c)
    (huniq : ∀ x ∈ cs, x.vend_id = v → x.status = "pending" → x ≠ c →
      c.created_at < x.created_at)
    (hc' : admissibleOldestPending cs v c') : c' = c := by
  by_contra hne
  have h1 : c.created_at < c'.created_at := huniq c' hc'.1 hc'.2.1 hc'.2.2.1 hne
  have h2 : c'.created_at ≤ c.created_at := hc'.2.2.2 c hc.1 hc.2.1 hc.2.2.1
  omega

/-! ### The at-most-one-non-terminal-command invariant -/

/-- Number of `pending` commands a machine currently has. -/
def pendingCount (db : DB) (v : String) : Nat :=
  (db.commands.filter (fun c => c.vend_id == v && c.status == "pending")).length

/-- No command row ever carries the `awaiting_payment` status (the payment
gate of the spec is not implemented by this source). -/
def NoAwaiting (db : DB) : Prop := ∀ c ∈ db.commands, c.status ≠ "awaiting_payment"

def LedgerInv (db : DB) : Prop := (∀ v, pendingCount db v ≤ 1) ∧ NoAwaiting db

theorem buy_item_commands_cases (db : DB) (v : String) (pid t : Nat) :
    (buy_item db v pid t).2.commands = db.commands ∨
    (hasPendingCommand db.commands v = false ∧ ∃ p, findProduct db.products pid = some p ∧
      (buy_item db v pid t).2.commands = db.commands ++ [newCommand db v p t]) := by
  unfold buy_item
  by_cases gv : (v == "") = true
  · simp [gv]
  · have gv' : (v == "") = false := Bool.eq_false_iff.mpr gv
    simp only [gv', Bool.false_eq_true, if_false]
    cases hp : findProduct db.products pid with
    | none => simp
    | some p =>
      by_cases hs : p.stock ≤ 0
      · simp [hs]
      · by_cases hb : hasPendingCommand db.commands v = true
        · simp [hs, hb]
        · have hb' : hasPendingCommand db.commands v = false := Bool.eq_false_iff.mpr hb
          right
          exact ⟨hb', p, rfl, by simp [hs, hb', newCommand]⟩

theorem acknowledge_commands_cases (db : DB) (v : String) (cid : Nat) (s : String) (t : Nat) :
    (acknowledge db v cid s t).2.commands = db.commands ∨
    (acknowledge db v cid s t).2.commands = updateFirstCommand db.commands cid (markSuccess t) ∨
    (acknowledge db v cid s t).2.commands = updateFirstCommand db.commands cid (markFailure t) := by
  unfold acknowledge
  by_cases g : (v == "" || cid == 0 || s == "") = true
  · simp [g]
  · simp only [g, Bool.false_eq_true, if_false]
    cases hc : findCommand db.commands cid with
    | none => simp
    | some c =>
      by_cases hmv : c.vend_id ≠ v
      · simp [hmv]
      · by_cases hst : c.status ≠ "pending"
        · simp [hmv, hst]
        · by_cases h1 : (s == "success") = true
          · simp [hmv, hst, h1]
          · by_cases h2 : (s == "failure") = true
            · simp [hmv, hst, h1, h2]
            · simp [hmv, hst, h1, h2]

theorem hasPendingCommand_false_filter (cs : List VendCommand) (v : String)
    (h : hasPendingCommand cs v = false) :
    cs.filter (fun c => c.vend_id == v && c.status == "pending") = [] := by
  unfold hasPendingCommand at h
  rw [List.any_eq_false] at h
  exact List.filter_eq_nil_iff.mpr h

theorem LedgerInv_applyOp (db : DB) (op : Op) (h : LedgerInv db) :
    LedgerInv (applyOp db op) := by
  obtain ⟨h1, h2⟩ := h
  cases op with
  | addProduct p =>
    constructor
    · intro v
      unfold applyOp add_product
      by_cases hm : db.products.any (fun q => q.motor_id == p.motor_id) = true
      · simpa [hm, pendingCount] using h1 v
      · have hm' := Bool.eq_false_iff.mpr hm
        simpa [hm', pendingCount] using h1 v
    · intro c hc
      have hc' : c ∈ (add_product db p).commands := hc
      unfold add_product at hc'
      by_cases hm : db.products.any (fun q => q.motor_id == p.motor_id) = true
      · rw [if_pos hm] at hc'; exact h2 c hc'
      · rw [if_neg hm] at hc'; exact h2 c hc'
  | buy v' pid t =>
    rcases buy_item_commands_cases db v' pid t with hcase | ⟨hnp, p, hp, hcase⟩
    · exact ⟨fun v => by simpa [applyOp, pendingCount, hcase] using h1 v,
        fun c hc => h2 c (by rwa [applyOp, hcase] at hc)⟩
    · constructor
      · intro v
        show (((buy_item db v' pid t).2.commands).filter _).length ≤ 1
        rw [hcase, List.filter_append]
        by_cases hv : v = v'
        · subst hv
          rw [hasPendingCommand_false_filter db.commands v hnp]
          simp [newCommand]
        · have : ((v' : String) == v) = false := beq_eq_false_iff_ne.mpr (Ne.symm hv)
          have hnc : ([newCommand db v' p t].filter
              (fun c => c.vend_id == v && c.status == "pending")) = [] := by
            simp [newCommand, this]
          rw [hnc, List.append_nil]
          exact h1 v
      · intro c hc
        rw [applyOp, hcase] at hc
        rcases List.mem_append.mp hc with hc | hc
        · exact h2 c hc
        · rw [List.mem_singleton] at hc
          subst hc
          simp [newCommand]
  | ack v' cid s t =>
    have hq : ∀ (f : VendCommand → VendCommand), (∀ k, (f k).status ≠ "pending") →
        ∀ v, ((updateFirstCommand db.commands cid f).filter
          (fun c => c.vend_id == v && c.status == "pending")).length ≤ 1 := by
      intro f hf v
      refine le_trans (filter_length_updateFirstCommand db.commands cid f _ ?_) (h1 v)
      intro c
      have := hf c
      simp [this]
    have hm : ∀ (f : VendCommand → VendCommand), (∀ k, (f k).status ≠ "awaiting_payment") →
        ∀ c ∈ updateFirstCommand db.commands cid f, c.status ≠ "awaiting_payment" := by
      intro f hf c hc
      rcases mem_updateFirstCommand db.commands cid f c hc with hc' | ⟨k, _, he⟩
      · exact h2 c hc'
      · exact he ▸ hf k
    rcases acknowledge_commands_cases db v' cid s t with hcase | hcase | hcase
    · exact ⟨fun v => by simpa [applyOp, pendingCount, hcase] using h1 v,
        fun c hc => h2 c (by rwa [applyOp, hcase] at hc)⟩
    · constructor
      · intro v
        show (((acknowledge db v' cid s t).2.commands).filter _).length ≤ 1
        rw [hcase]
        exact hq (markSuccess t) (fun k => by simp [markSuccess]) v
      · intro c hc
        rw [applyOp, hcase] at hc
        exact hm (markSuccess t) (fun k => by simp [markSuccess]) c hc
    · constructor
      · intro v
        show (((acknowledge db v' cid s t).2.commands).filter _).length ≤ 1
        rw [hcase]
        exact hq (markFailure t) (fun k => by simp [markFailure]) v
      · intro c hc
        rw [applyOp, hcase] at hc
        exact hm (markFailure t) (fun k => by simp [markFailure]) c hc

theorem LedgerInv_emptyDB : LedgerInv emptyDB :=
  ⟨fun v => by simp [pendingCount, emptyDB], fun c hc => by simp [emptyDB] at hc⟩

theorem LedgerInv_foldl (ops : List Op) : ∀ db : DB, LedgerInv db →
    LedgerInv (ops.foldl applyOp db) := by
  induction ops with
  | nil => intro db h; exact h
  | cons op ops ih =>
    intro db h
    exact ih (applyOp db op) (LedgerInv_applyOp db op h)

theorem LedgerInv_run (ops : List Op) : LedgerInv (run ops) :=
  LedgerInv_foldl ops emptyDB LedgerInv_emptyDB

theorem nonTerminalCount_eq_pendingCount (db : DB) (v : String) (h : NoAwaiting db) :
    nonTerminalCount db v = pendingCount db v := by
  unfold nonTerminalCount pendingCount
  congr 1
  apply List.filter_congr
  intro c hc
  have := h c hc
  have hb : (c.status == "awaiting_payment") = false := beq_eq_false_iff_ne.mpr this
  rw [hb, Bool.or_false]

theorem removeStock_id (q : Product) : (removeStock q).id = q.id := rfl

theorem addStock_id (q : Product) : (addStock q).id = q.id := rfl

/-! ### Concrete sample rows and databases for closed instances -/

def colaProduct : Product :=
  { id := 1, name := "cola", price := 5, stock := 3, motor_id := 2 }

def soldOutProduct : Product :=
  { id := 1, name := "cola", price := 5, stock := 0, motor_id := 2 }

def pendingCmd : VendCommand :=
  { id := 1, vend_id := "VM1", product_id := 1, motor_id := 2,
    status := "pending", created_at := 0, acknowledged_at := none }

def tieCmd : VendCommand :=
  { id := 2, vend_id := "VM1", product_id := 1, motor_id := 7,
    status := "pending", created_at := 0, acknowledged_at := none }

/-- One product in stock, one pending command for machine `VM1`. -/
def sampleDB : DB :=
  { products := [colaProduct], commands := [pendingCmd], transactions := [],
    next_command_id := 2 }

/-- One product in stock, no commands yet. -/
def freshDB : DB :=
  { products := [colaProduct], commands := [], transactions := [], next_command_id := 1 }

/-- A pending command whose product row has been deleted. -/
def orphanDB : DB :=
  { products := [], commands := [pendingCmd], transactions := [], next_command_id := 2 }

/-- The sample product at stock zero. -/
def soldOutDB : DB :=
  { products := [soldOutProduct], commands := [], transactions := [], next_command_id := 1 }

/-- Two pending commands with equal creation timestamps. -/
def tieDB : DB :=
  { products := [], commands := [pendingCmd, tieCmd], transactions := [],
    next_command_id := 3 }

/-! ### Claims -/

/-- Claim C6: for every command and every acknowledge call whose machine id
differs from the command's `vend_id`, the call fails with the
machine-mismatch error and leaves the whole database — command ledger,
product stock, transaction history — unchanged, in `flask_server.py`'s
handler and in the `app.py` variant alike. -/
theorem C6_theorem (db : DB) (v : String) (cid t : Nat) (s : String) (c : VendCommand)
    (hv : v ≠ "") (hcid : cid ≠ 0) (hs : s ≠ "")
    (hc : findCommand db.commands cid = some c) (hmv : c.vend_id ≠ v) :
    acknowledge db v cid s t = (.machineMismatch, db) ∧
    acknowledge_app db v cid s t = (.machineMismatch, db) :=
  ⟨acknowledge_mismatch_eq db v cid t s c hv hcid hs hc hmv,
   acknowledge_app_mismatch_eq db v cid t s c hv hcid hs hc hmv⟩

theorem C6_witness :
    acknowledge sampleDB "VM2" 1 "success" 9 = (.machineMismatch, sampleDB) ∧
    acknowledge_app sampleDB "VM2" 1 "success" 9 = (.machineMismatch, sampleDB) :=
  C6_theorem sampleDB "VM2" 1 9 "success" pendingCmd (by decide) (by decide)
    (by decide) (by decide) (by decide)

/-- Claim C8: a purchase request for a missing product fails with the
invalid-product outcome, and one for a product with zero (or negative)
stock fails with the out-of-stock outcome; in both cases the database is
returned unchanged — no command row is inserted and no stock changes. -/
theorem C8_theorem (db : DB) (v : String) (pid t : Nat) (hv : v ≠ "") :
    (findProduct db.products pid = none → buy_item db v pid t = (.invalidProduct, db)) ∧
    (∀ p, findProduct db.products pid = some p → p.stock ≤ 0 →
      buy_item db v pid t = (.outOfStock, db)) :=
  ⟨fun hp => buy_item_invalid_eq db v pid t hv hp,
   fun p hp hs => buy_item_outOfStock_eq db v pid t p hv hp hs⟩

theorem C8_witness :
    buy_item freshDB "VM1" 99 7 = (.invalidProduct, freshDB) ∧
    buy_item soldOutDB "VM1" 1 7 = (.outOfStock, soldOutDB) :=
  ⟨(C8_theorem freshDB "VM1" 99 7 (by decide)).1 (by decide),
   (C8_theorem soldOutDB "VM1" 1 7 (by decide)).2 soldOutProduct (by decide) (by decide)⟩

/-- Claim C9: a `success` acknowledgment leaves every product row (hence
every stock level) unchanged, unconditionally; the one-unit decrement for a
purchase happens exactly once, at creation time inside `buy_item`, which
lowers the bought product's stock by exactly 1 and touches no other
product. -/
theorem C9_theorem :
    (∀ (db : DB) (v : String) (cid t : Nat),
      (acknowledge db v cid "success" t).2.products = db.products) ∧
    (∀ (db : DB) (v : String) (pid t : Nat) (p : Product), v ≠ "" →
      findProduct db.products pid = some p → ¬p.stock ≤ 0 →
      hasPendingCommand db.commands v = false →
      findProduct (buy_item db v pid t).2.products pid = some (removeStock p) ∧
      ∀ pid', pid' ≠ pid →
        findProduct (buy_item db v pid t).2.products pid' = findProduct db.products pid') := by
  refine ⟨acknowledge_success_products_eq, ?_⟩
  intro db v pid t p hv hp hs hnp
  rw [buy_item_ok_eq db v pid t p hv hp hs hnp]
  have hid : p.id = pid := findProduct_id _ _ _ hp
  constructor
  · show findProduct (updateFirstProduct db.products p.id removeStock) pid = some (removeStock p)
    rw [hid, findProduct_updateFirstProduct_same _ _ _ removeStock_id, hp]
    rfl
  · intro pid' hne
    show findProduct (updateFirstProduct db.products p.id removeStock) pid' = _
    rw [hid]
    exact findProduct_updateFirstProduct_other db.products pid pid' removeStock removeStock_id hne

theorem C9_witness :
    (acknowledge sampleDB "VM1" 1 "success" 5).2.products = sampleDB.products ∧
    findProduct (buy_item freshDB "VM1" 1 7).2.products 1 = some (removeStock colaProduct) :=
  ⟨C9_theorem.1 sampleDB "VM1" 1 5,
   (C9_theorem.2 freshDB "VM1" 1 7 colaProduct (by decide) (by decide) (by decide)
     (by decide)).1⟩

/-- Claim C10: a `failure` acknowledgment of a pending command whose product
row no longer exists still transitions the command to
`acknowledged_failure` and reports success to the caller, while the
compensating stock increment is silently skipped: no product row and no
transaction changes. -/
theorem C10_theorem (db : DB) (v : String) (cid t : Nat) (c : VendCommand)
    (hv : v ≠ "") (hcid : cid ≠ 0)
    (hc : findCommand db.commands cid = some c) (hmv : c.vend_id = v)
    (hst : c.status = "pending") (hp : findProduct db.products c.product_id = none) :
    (acknowledge db v cid "failure" t).1 = .acknowledged ∧
    (acknowledge db v cid "failure" t).2.products = db.products ∧
    (acknowledge db v cid "failure" t).2.transactions = db.transactions ∧
    findCommand (acknowledge db v cid "failure" t).2.commands cid = some (markFailure t c) := by
  rw [acknowledge_failure_eq db v cid t c hv hcid hc hmv hst]
  refine ⟨rfl, by simp [hp], rfl, ?_⟩
  show findCommand (updateFirstCommand db.commands cid (markFailure t)) cid = _
  rw [findCommand_updateFirstCommand_same _ _ _ (markFailure_id t), hc]
  rfl

theorem C10_witness :
    (acknowledge orphanDB "VM1" 1 "failure" 9).1 = .acknowledged ∧
    (acknowledge orphanDB "VM1" 1 "failure" 9).2.products = orphanDB.products ∧
    (acknowledge orphanDB "VM1" 1 "failure" 9).2.transactions = orphanDB.transactions ∧
    findCommand (acknowledge orphanDB "VM1" 1 "failure" 9).2.commands 1 =
      some (markFailure 9 pendingCmd) :=
  C10_theorem orphanDB "VM1" 1 9 pendingCmd (by decide) (by decide) (by decide)
    (by decide) (by decide) (by decide)

/-- Claim C4: a `failure` acknowledgment of a pending command transitions it
to `acknowledged_failure`, and — this code base being the
optimistic-decrement design — compensates the referenced product's stock by
incrementing it by exactly 1, exactly once (a repeated failure report
changes nothing further, and no other product is touched); composing a
purchase with its failure acknowledgment returns the stock to exactly the
value it had when the command was created, so stock never ends below that
value. -/
theorem C4_theorem :
    (∀ (db : DB) (v : String) (cid t t' : Nat) (c : VendCommand) (p : Product),
      v ≠ "" → cid ≠ 0 → findCommand db.commands cid = some c → c.vend_id = v →
      c.status = "pending" → findProduct db.products c.product_id = some p →
      (acknowledge db v cid "failure" t).1 = .acknowledged ∧
      findCommand (acknowledge db v cid "failure" t).2.commands cid =
        some (markFailure t c) ∧
      findProduct (acknowledge db v cid "failure" t).2.products c.product_id =
        some (addStock p) ∧
      (∀ pid', pid' ≠ c.product_id →
        findProduct (acknowledge db v cid "failure" t).2.products pid' =
          findProduct db.products pid') ∧
      (acknowledge (acknowledge db v cid "failure" t).2 v cid "failure" t').2 =
        (acknowledge db v cid "failure" t).2) ∧
    (∀ (db : DB) (v : String) (pid t t' : Nat) (p : Product),
      v ≠ "" → db.next_command_id ≠ 0 → (∀ k ∈ db.commands, k.id < db.next_command_id) →
      findProduct db.products pid = some p → ¬p.stock ≤ 0 →
      hasPendingCommand db.commands v = false →
      (findProduct (buy_item db v pid t).2.products pid).map Product.stock =
        some (p.stock - 1) ∧
      (findProduct
        (acknowledge (buy_item db v pid t).2 v db.next_command_id "failure" t').2.products
        pid).map Product.stock = some p.stock) := by
  constructor
  · intro db v cid t t' c p hv hcid hc hmv hst hp
    refine ⟨?_, ?_, ?_, ?_, acknowledge_twice_eq_once db v cid "failure" t t'⟩
    · rw [acknowledge_failure_eq db v cid t c hv hcid hc hmv hst]
    · rw [acknowledge_failure_eq db v cid t c hv hcid hc hmv hst]
      show findCommand (updateFirstCommand db.commands cid (markFailure t)) cid = _
      rw [findCommand_updateFirstCommand_same _ _ _ (markFailure_id t), hc]
      rfl
    · rw [acknowledge_failure_eq db v cid t c hv hcid hc hmv hst]
      show findProduct
        (match findProduct db.products c.product_id with
         | some _ => updateFirstProduct db.products c.product_id addStock
         | none => db.products) c.product_id = _
      rw [hp, findProduct_updateFirstProduct_same _ _ _ addStock_id, hp]
      rfl
    · intro pid' hne
      rw [acknowledge_failure_eq db v cid t c hv hcid hc hmv hst]
      show findProduct
        (match findProduct db.products c.product_id with
         | some _ => updateFirstProduct db.products c.product_id addStock
         | none => db.products) pid' = _
      rw [hp]
      exact findProduct_updateFirstProduct_other db.products c.product_id pid'
        addStock addStock_id hne
  · intro db v pid t t' p hv hnz hfresh hp hs hnp
    have hid : p.id = pid := findProduct_id _ _ _ hp
    rw [buy_item_ok_eq db v pid t p hv hp hs hnp]
    have hfound : findProduct (updateFirstProduct db.products p.id removeStock) pid =
        some (removeStock p) := by
      rw [hid, findProduct_updateFirstProduct_same _ _ _ removeStock_id, hp]
      rfl
    constructor
    · show (findProduct (updateFirstProduct db.products p.id removeStock) pid).map
        Product.stock = _
      rw [hfound]
      rfl
    · have hcnew : findCommand (db.commands ++ [newCommand db v p t])
          db.next_command_id = some (newCommand db v p t) := by
        have := findCommand_append_right db.commands (newCommand db v p t)
          (fun k hk => by
            have := hfresh k hk
            show k.id ≠ (newCommand db v p t).id
            simp only [newCommand]
            omega)
        simpa [newCommand] using this
      rw [acknowledge_failure_eq _ v db.next_command_id t' (newCommand db v p t)
        hv hnz hcnew rfl rfl]
      show (findProduct
        (match findProduct (updateFirstProduct db.products p.id removeStock)
            (newCommand db v p t).product_id with
         | some _ => updateFirstProduct (updateFirstProduct db.products p.id removeStock)
             (newCommand db v p t).product_id addStock
         | none => updateFirstProduct db.products p.id removeStock) pid).map
        Product.stock = some p.stock
      have hpidnew : (newCommand db v p t).product_id = pid := hid
      rw [hpidnew, hfound]
      have h2 : findProduct
          (updateFirstProduct (updateFirstProduct db.products p.id removeStock) pid addStock)
          pid = some (addStock (removeStock p)) := by
        rw [findProduct_updateFirstProduct_same _ _ _ addStock_id, hfound]
        rfl
      rw [h2]
      show some (p.stock - 1 + 1) = some p.stock
      rw [Int.sub_add_cancel]

theorem C4_witness :
    findProduct (acknowledge sampleDB "VM1" 1 "failure" 5).2.products 1 =
      some (addStock colaProduct) ∧
    (findProduct
      (acknowledge (buy_item freshDB "VM1" 1 7).2 "VM1" 1 "failure" 9).2.products
      1).map Product.stock = some colaProduct.stock :=
  ⟨(C4_theorem.1 sampleDB "VM1" 1 5 6 pendingCmd colaProduct (by decide) (by decide)
      (by decide) (by decide) (by decide) (by decide)).2.2.1,
   (C4_theorem.2 freshDB "VM1" 1 7 9 colaProduct (by decide) (by decide)
      (by decide) (by decide) (by decide) (by decide)).2⟩

/-- Claim C3 counterexample: a transitioning `failure` acknowledgment of the
sample pending command succeeds, yet creates no Transaction row in either
handler — refuting the claim's assertion that exactly one Transaction row
is created regardless of repetition count. -/
theorem C3_counterexample :
    (acknowledge sampleDB "VM1" 1 "failure" 5).1 = .acknowledged ∧
    (acknowledge_app sampleDB "VM1" 1 "failure" 5).1 = .acknowledged ∧
    ¬((acknowledge sampleDB "VM1" 1 "failure" 5).2.transactions.length = 1) ∧
    ¬((acknowledge_app sampleDB "VM1" 1 "failure" 5).2.transactions.length = 1) := by
  decide

/-- The database after `n` repetitions of the same acknowledgment call. -/
def ackIter (v : String) (cid : Nat) (s : String) (t : Nat) : Nat → DB → DB
  | 0, db => db
  | n + 1, db => (acknowledge (ackIter v cid s t n db) v cid s t).2

/-- Claim C3 as amended: acknowledging the same `(command_id, outcome)` a
second time — or any number of times — has the same observable effect on
the database as acknowledging it once, and after a transitioning first
call every repetition is a no-op answered with the `already processed`
note; however `flask_server.py`'s handler never creates a Transaction row
(stock bookkeeping, not transaction logging, is what happens exactly
once). -/
theorem C3_amended_theorem :
    (∀ (db : DB) (v : String) (cid : Nat) (s : String) (t t' : Nat),
      (acknowledge (acknowledge db v cid s t).2 v cid s t').2 =
        (acknowledge db v cid s t).2) ∧
    (∀ (db : DB) (v : String) (cid : Nat) (s : String) (t t' : Nat),
      (acknowledge db v cid s t).1 = .acknowledged →
      (acknowledge (acknowledge db v cid s t).2 v cid s t').1 = .alreadyProcessed) ∧
    (∀ (db : DB) (v : String) (cid : Nat) (s : String) (t n : Nat),
      ackIter v cid s t (n + 1) db = (acknowledge db v cid s t).2) ∧
    (∀ (db : DB) (v : String) (cid : Nat) (s : String) (t : Nat),
      (acknowledge db v cid s t).2.transactions = db.transactions) := by
  refine ⟨acknowledge_twice_eq_once, acknowledge_second_already, ?_,
    acknowledge_transactions_eq⟩
  intro db v cid s t n
  induction n with
  | zero => rfl
  | succ n ih =>
    show (acknowledge (ackIter v cid s t (n + 1) db) v cid s t).2 = _
    rw [ih]
    exact acknowledge_twice_eq_once db v cid s t t

theorem C3_witness :
    (acknowledge (acknowledge sampleDB "VM1" 1 "failure" 5).2 "VM1" 1 "failure" 6).1 =
      .alreadyProcessed :=
  C3_amended_theorem.2.1 sampleDB "VM1" 1 "failure" 5 6 (by decide)

/-- Claim C1 counterexample: acknowledging the sample pending command
(product in stock with 3 units, price 5) with `success` transitions it, yet
leaves the stock at 3 instead of the claimed 2 and creates no Transaction
row in `flask_server.py`; and when the product row is missing, the command
ends in `acknowledged_success`, not in the claimed terminal
`product_missing` status. -/
theorem C1_counterexample :
    (acknowledge sampleDB "VM1" 1 "success" 5).1 = .acknowledged ∧
    ¬((findProduct (acknowledge sampleDB "VM1" 1 "success" 5).2.products 1).map
        Product.stock = some 2 ∧
      (acknowledge sampleDB "VM1" 1 "success" 5).2.transactions.length = 1) ∧
    ¬((findCommand (acknowledge orphanDB "VM1" 1 "success" 5).2.commands 1).map
        VendCommand.status = some "product_missing") := by
  decide

/-- Claim C1 as amended: on `success` for a pending command with matching
machine id, the command transitions to `acknowledged_success` (with
`acknowledged_at` set) and no product's stock changes — the decrement
already happened at purchase creation; `flask_server.py`'s handler creates
no Transaction row; the `app.py` variant appends exactly one Transaction
row with `amount_paid = product.price` when the product exists, and when
the product is missing it still finishes in `acknowledged_success`
(silently skipping the log) with no stock or transaction change. No
`product_missing` or `stock_error` status exists in this code. -/
theorem C1_amended_theorem (db : DB) (v : String) (cid t : Nat) (c : VendCommand)
    (hv : v ≠ "") (hcid : cid ≠ 0) (hc : findCommand db.commands cid = some c)
    (hmv : c.vend_id = v) (hst : c.status = "pending") :
    (acknowledge db v cid "success" t).1 = .acknowledged ∧
    findCommand (acknowledge db v cid "success" t).2.commands cid =
      some (markSuccess t c) ∧
    (acknowledge db v cid "success" t).2.products = db.products ∧
    (acknowledge db v cid "success" t).2.transactions = db.transactions ∧
    (acknowledge_app db v cid "success" t).1 = .acknowledged ∧
    (acknowledge_app db v cid "success" t).2.products = db.products ∧
    (∀ p, findProduct db.products c.product_id = some p →
      (acknowledge_app db v cid "success" t).2.transactions =
        db.transactions ++ [{ product_id := p.id, quantity := 1, amount_paid := p.price }]) ∧
    (findProduct db.products c.product_id = none →
      (acknowledge_app db v cid "success" t).2.transactions = db.transactions ∧
      findCommand (acknowledge_app db v cid "success" t).2.commands cid =
        some (markSuccess t c)) := by
  have hflask := acknowledge_success_eq db v cid t c hv hcid hc hmv hst
  refine ⟨by rw [hflask], ?_, by rw [hflask], by rw [hflask], ?_, ?_, ?_, ?_⟩
  · rw [hflask]
    show findCommand (updateFirstCommand db.commands cid (markSuccess t)) cid = _
    rw [findCommand_updateFirstCommand_same _ _ _ (markSuccess_id t), hc]
    rfl
  · cases hp : findProduct db.products c.product_id with
    | some p => rw [acknowledge_app_success_found_eq db v cid t c p hv hcid hc hmv hst hp]
    | none => rw [acknowledge_app_success_missing_eq db v cid t c hv hcid hc hmv hst hp]
  · exact acknowledge_app_success_products_eq db v cid t
  · intro p hp
    rw [acknowledge_app_success_found_eq db v cid t c p hv hcid hc hmv hst hp]
  · intro hp
    rw [acknowledge_app_success_missing_eq db v cid t c hv hcid hc hmv hst hp]
    refine ⟨rfl, ?_⟩
    show findCommand (updateFirstCommand db.commands cid (markSuccess t)) cid = _
    rw [findCommand_updateFirstCommand_same _ _ _ (markSuccess_id t), hc]
    rfl

theorem C1_witness :
    findCommand (acknowledge sampleDB "VM1" 1 "success" 5).2.commands 1 =
      some (markSuccess 5 pendingCmd) ∧
    (acknowledge_app sampleDB "VM1" 1 "success" 5).2.transactions =
      sampleDB.transactions ++
        [{ product_id := 1, quantity := 1, amount_paid := colaProduct.price }] :=
  ⟨(C1_amended_theorem sampleDB "VM1" 1 5 pendingCmd (by decide) (by decide)
      (by decide) (by decide) (by decide)).2.1,
   (C1_amended_theorem sampleDB "VM1" 1 5 pendingCmd (by decide) (by decide)
      (by decide) (by decide) (by decide)).2.2.2.2.2.2.1 colaProduct (by decide)⟩

/-- Claim C2 counterexample: with the sample pending command outstanding for
`VM1`, a second purchase request for that machine is rejected
(`purchaseInProgress`) and the database is returned unchanged — no command
is ever transitioned to `superseded` and no new command is inserted,
refuting the claimed supersede-then-insert behavior. -/
theorem C2_counterexample :
    buy_item sampleDB "VM1" 1 7 = (.purchaseInProgress, sampleDB) ∧
    ¬((buy_item sampleDB "VM1" 1 7).2.commands.any
        (fun c => c.status == "superseded") = true) ∧
    ¬((buy_item sampleDB "VM1" 1 7).2.commands.length = 2) := by
  decide

/-- Claim C2 as amended: a purchase request for a machine that already has a
pending command is rejected with the purchase-in-progress warning and
leaves the database unchanged (the prior command stays `pending`; nothing
is superseded, nothing inserted); consequently after two quick purchase
requests for the same machine the first command is the machine's pending
command, the dispatcher keeps returning the FIRST command's id, and the
second request created nothing. -/
theorem C2_amended_theorem :
    (∀ (db : DB) (v : String) (pid t : Nat) (p : Product),
      v ≠ "" → findProduct db.products pid = some p → ¬p.stock ≤ 0 →
      hasPendingCommand db.commands v = true →
      buy_item db v pid t = (.purchaseInProgress, db)) ∧
    (∀ (db : DB) (v : String) (pid t : Nat) (p : Product),
      v ≠ "" → findProduct db.products pid = some p → ¬p.stock ≤ 0 →
      hasPendingCommand db.commands v = false →
      hasPendingCommand (buy_item db v pid t).2.commands v = true ∧
      get_command (buy_item db v pid t).2 v = .command p.motor_id db.next_command_id ∧
      (∀ (pid' t' : Nat) (p' : Product),
        findProduct (buy_item db v pid t).2.products pid' = some p' → ¬p'.stock ≤ 0 →
        buy_item (buy_item db v pid t).2 v pid' t' =
          (.purchaseInProgress, (buy_item db v pid t).2))) := by
  constructor
  · intro db v pid t p hv hp hs hpend
    exact buy_item_inProgress_eq db v pid t p hv hp hs hpend
  · intro db v pid t p hv hp hs hnp
    have hok := buy_item_ok_eq db v pid t p hv hp hs hnp
    have hnewpred : ((newCommand db v p t).vend_id == v &&
        (newCommand db v p t).status == "pending") = true := by
      simp [newCommand]
    have hpend1 : hasPendingCommand (buy_item db v pid t).2.commands v = true := by
      rw [hok]
      show hasPendingCommand (db.commands ++ [newCommand db v p t]) v = true
      unfold hasPendingCommand
      rw [List.any_append]
      simp [hnewpred]
    refine ⟨hpend1, ?_, ?_⟩
    · rw [hok]
      show get_command
        { db with
            commands := db.commands ++ [newCommand db v p t],
            products := updateFirstProduct db.products p.id removeStock,
            next_command_id := db.next_command_id + 1 } v = _
      unfold get_command
      rw [if_neg (by simpa using hv)]
      have hfilter : (db.commands ++ [newCommand db v p t]).filter
          (fun c => c.vend_id == v && c.status == "pending") = [newCommand db v p t] := by
        rw [List.filter_append, hasPendingCommand_false_filter db.commands v hnp]
        simp [hnewpred]
      show (match oldestPending (db.commands ++ [newCommand db v p t]) v with
        | some c => GetCommandResult.command c.motor_id c.id
        | none => GetCommandResult.noCommand) = _
      unfold oldestPending
      rw [hfilter]
      rfl
    · intro pid' t' p' hp' hs'
      exact buy_item_inProgress_eq _ v pid' t' p' hv hp' hs' hpend1

theorem C2_witness :
    get_command (buy_item freshDB "VM1" 1 7).2 "VM1" = .command 2 1 ∧
    buy_item (buy_item freshDB "VM1" 1 7).2 "VM1" 1 8 =
      (.purchaseInProgress, (buy_item freshDB "VM1" 1 7).2) := by
  have h := C2_amended_theorem.2 freshDB "VM1" 1 7 colaProduct (by decide) (by decide)
    (by decide) (by decide)
  exact ⟨h.2.1, h.2.2 1 8 (removeStock colaProduct) (by decide) (by decide)⟩

/-- Claim C5: after every sequence of operations (product creation,
purchase-request creation, acknowledgment) starting from the empty
database, every machine has at most one command in a non-terminal
(`pending` or `awaiting_payment`) status at any observed instant. -/
theorem C5_theorem : ∀ (ops : List Op) (v : String), nonTerminalCount (run ops) v ≤ 1 := by
  intro ops v
  have h := LedgerInv_run ops
  rw [nonTerminalCount_eq_pendingCount _ _ h.2]
  exact h.1 v

/-- Claim C7 counterexample: the claimed lower-id tie-break is not a
guarantee of the code. The query behind `get_command` is
`ORDER BY created_at ASC LIMIT 1` with no secondary sort key, so at `tieDB`
— two pending commands for `VM1` with equal `created_at` — the higher-id
command (id 2) is an admissible result of the query, and it does not
satisfy the claimed dispatch order against the lower-id command (id 1). -/
theorem C7_counterexample :
    admissibleOldestPending tieDB.commands "VM1" tieCmd ∧
    ¬ dispatchedBefore tieCmd pendingCmd ∧
    pendingCmd ∈ tieDB.commands ∧ pendingCmd.vend_id = "VM1" ∧
    pendingCmd.status = "pending" ∧ pendingCmd.id < tieCmd.id ∧
    pendingCmd.created_at = tieCmd.created_at := by
  decide

/-- Claim C7 as amended: for every machine, `get_command` returns the slot
(motor id) and command id of a `pending` command of that machine whose
creation timestamp is minimal — an admissible result of the source's
`ORDER BY created_at ASC LIMIT 1` query, whose order among equal
`created_at` values is unspecified — or the empty result when no pending
command exists; whenever the earliest creation timestamp is attained by a
single pending command (the only case the query determines), every
admissible result is that earliest-created command. The handler performs no
writes (the expiry block is commented out), so it is embedded as a pure
function of the database and mutates no ledger state by construction. -/
theorem C7_amended_theorem (db : DB) (v : String) (hv : v ≠ "") :
    (get_command db v = .noCommand →
      ∀ c ∈ db.commands, ¬(c.vend_id = v ∧ c.status = "pending")) ∧
    (∀ m cid, get_command db v = .command m cid →
      ∃ c, admissibleOldestPending db.commands v c ∧ c.id = cid ∧ c.motor_id = m) ∧
    (∀ c c', admissibleOldestPending db.commands v c →
      (∀ x ∈ db.commands, x.vend_id = v → x.status = "pending" → x ≠ c →
        c.created_at < x.created_at) →
      admissibleOldestPending db.commands v c' → c' = c) := by
  refine ⟨?_, ?_, fun c c' hc huniq hc' =>
    admissibleOldestPending_unique db.commands v c c' hc huniq hc'⟩
  · intro h
    unfold get_command at h
    rw [if_neg (by simpa using hv)] at h
    cases ho : oldestPending db.commands v with
    | none => exact oldestPending_eq_none db.commands v ho
    | some c =>
      rw [ho] at h
      simp at h
  · intro m cid h
    unfold get_command at h
    rw [if_neg (by simpa using hv)] at h
    cases ho : oldestPending db.commands v with
    | none =>
      rw [ho] at h
      simp at h
    | some c =>
      rw [ho] at h
      have h' : GetCommandResult.command c.motor_id c.id = .command m cid := h
      injection h' with h1 h2
      exact ⟨c, oldestPending_some_admissible db.commands v c ho, h2, h1⟩

theorem C7_witness :
    (∃ c, admissibleOldestPending sampleDB.commands "VM1" c ∧ c.id = 1 ∧
      c.motor_id = 2) ∧
    ∀ c', admissibleOldestPending sampleDB.commands "VM1" c' → c' = pendingCmd := by
  have h := C7_amended_theorem sampleDB "VM1" (by decide)
  exact ⟨h.2.1 2 1 (by decide),
    fun c' hc' => h.2.2 pendingCmd c' (by decide) (by decide) hc'⟩

end Vending
